import Mathlib

/-!
Verification of the data-preparation and filtering pipeline of the RH dashboard
(`app.py`), via a shallow embedding in Lean.

Modelling conventions:
* A spreadsheet cell is `Option v`: `none` stands for a missing value (pandas `NaN`/`NaT`).
* Cells of the three date-bearing columns are modelled as their
  `pd.to_datetime(..., errors="coerce")` result: `some d` when the cell parses to the
  day number `d` (days since the epoch), `none` when the cell is missing or unparseable;
  the coercion step itself is then the identity on these cells, applied per cell.
* Numeric cells are rationals (pandas floats carry exact decimal data here).
* `today` (the `date.today()` timestamp) is passed explicitly as a day number.
* Column presence is tracked by the `cols` list of a table; by convention a field whose
  column is absent holds `none` in every row, which the loader enforces.
* String case mapping and whitespace trimming are modelled on ASCII, which is exact for
  every comparison the code performs (`"M"`, `"F"`, `"Todos"`, column names).
* Rendering (currency formatting, widgets, charts) is outside the model, as the spec
  excludes the presentation layer; a metric that the app renders as the string `"N/A"`
  is modelled as `none`.
-/

namespace RHDash

/-- Truncation toward zero of a rational, as Python `int()` applied to a float: on a
fraction in lowest terms with positive denominator this is the truncating integer
division of numerator by denominator. -/
def truncQ (x : ℚ) : ℤ := x.num.tdiv (x.den : ℤ)

/-- Base letter of an accented Latin letter, the fragment of NFKD decomposition
(followed by dropping the combining mark) relevant to this dataset's column names;
characters without a listed decomposition are left unchanged. -/
def latinBase (c : Char) : Char :=
  if c ∈ ['á', 'à', 'â', 'ã', 'ä'] then 'a'
  else if c ∈ ['Á', 'À', 'Â', 'Ã', 'Ä'] then 'A'
  else if c ∈ ['é', 'è', 'ê', 'ë'] then 'e'
  else if c ∈ ['É', 'È', 'Ê', 'Ë'] then 'E'
  else if c ∈ ['í', 'ì', 'î', 'ï'] then 'i'
  else if c ∈ ['Í', 'Ì', 'Î', 'Ï'] then 'I'
  else if c ∈ ['ó', 'ò', 'ô', 'õ', 'ö'] then 'o'
  else if c ∈ ['Ó', 'Ò', 'Ô', 'Õ', 'Ö'] then 'O'
  else if c ∈ ['ú', 'ù', 'û', 'ü'] then 'u'
  else if c ∈ ['Ú', 'Ù', 'Û', 'Ü'] then 'U'
  else if c = 'ç' then 'c'
  else if c = 'Ç' then 'C'
  else if c = 'ñ' then 'n'
  else if c = 'Ñ' then 'N'
  else c

/-- Column-name canonicalization of `app.py` line 45: NFKD-decompose, drop non-ASCII
characters, replace spaces with underscores, then delete every character that is not
`[a-zA-Z0-9_]`. -/
def normalizeColName (s : String) : String :=
  String.mk ((((s.data.map latinBase).filter (fun c => c.toNat < 128)).map
    (fun c => if c = ' ' then '_' else c)).filter (fun c => c.isAlphanum || c = '_'))

/-- A raw spreadsheet row, one field per column the pipeline ever reads.  Each field
holds the cells of the raw column whose normalized name is the corresponding canonical
name; a field whose column is absent from the file is `none` (and is masked again by the
loader).  Date fields hold the per-cell `to_datetime` coercion result. -/
structure RawRow where
  nome : Option String := none
  nasc : Option ℤ := none
  contr : Option ℤ := none
  demis : Option ℤ := none
  area : Option String := none
  nivel : Option String := none
  cargo : Option String := none
  salario : Option ℚ := none
  impostos : Option ℚ := none
  beneficios : Option ℚ := none
  vt : Option ℚ := none
  vr : Option ℚ := none
  sexo : Option String := none
  endereco : Option String := none
deriving DecidableEq

/-- A raw table: the raw column names as they appear in the file, plus the rows. -/
structure RawTable where
  cols : List String
  rows : List RawRow
deriving DecidableEq

/-- A normalized/derived row, fields named after the canonical column names used by the
source.  `Faixa_Etaria`, `Custo_Total_Mensal` and `Estado` are the transient columns the
chart section adds to `df_filtered`; the loader leaves them `none`. -/
structure Row where
  Nome_Completo : Option String := none
  Data_de_Nascimento : Option ℤ := none
  Data_de_Contratacao : Option ℤ := none
  Data_de_Demissao : Option ℤ := none
  Area : Option String := none
  Nivel : Option String := none
  Cargo : Option String := none
  Salario_Base : Option ℚ := none
  Impostos : Option ℚ := none
  Beneficios : Option ℚ := none
  VT : Option ℚ := none
  VR : Option ℚ := none
  Sexo : Option String := none
  Endereco : Option String := none
  Idade : Option ℤ := none
  Status : String := "Ativo"
  Faixa_Etaria : Option String := none
  Custo_Total_Mensal : Option ℚ := none
  Estado : Option String := none
deriving DecidableEq

/-- A data frame: its (normalized) column names and its rows. -/
structure Table where
  cols : List String
  rows : List Row
deriving DecidableEq

deriving instance DecidableEq for Except

def emptyTable : Table := { cols := [], rows := [] }

/-- The input the loader is pointed at: a missing file, a file `read_excel` cannot
parse (raising inside the `try` block), or a readable raw table. -/
inductive ExcelInput
  | missingFile
  | corrupt
  | table (raw : RawTable)
deriving DecidableEq

/-- `df[name] = ...` on a frame: appends the column name if it is new. -/
def addName (cs : List String) (n : String) : List String :=
  if n ∈ cs then cs else cs ++ [n]

/-- ASCII-model of Python `str.strip` (leading part). -/
def dropLeadWS : List Char → List Char
  | [] => []
  | c :: cs => if c.isWhitespace then dropLeadWS cs else c :: cs

/-- ASCII-model of Python `str.strip`: drop leading and trailing whitespace. -/
def stripChars (l : List Char) : List Char :=
  ((dropLeadWS l.reverse).reverse |> dropLeadWS)

/-- `astype(str)` on a cell: a missing value prints as the string `nan`. -/
def pyStr : Option String → String
  | none => "nan"
  | some s => s

/-- Gender normalization of `app.py` lines 63-66: `astype(str)`, uppercase, strip, then
map to `M`, `F` or missing. -/
def normalizeSexo (x : Option String) : Option String :=
  if String.mk (stripChars ((pyStr x).data.map Char.toUpper)) = "M" then some "M"
  else if String.mk (stripChars ((pyStr x).data.map Char.toUpper)) = "F" then some "F"
  else none

/-- Age in whole years as computed on line 56:
`((today - birth).dt.days / 365.25).astype(int)`. -/
def ageOf (today d : ℤ) : ℤ := truncQ (((today - d : ℤ) : ℚ) / (1461 / 4 : ℚ))

/-- The column list of a successfully prepared table: the normalized raw columns, plus
`Idade` when a birth-date column exists, plus `Status` (always assigned). -/
def prepCols (cols : List String) : List String :=
  addName (if "Data_de_Nascimento" ∈ cols then addName cols "Idade" else cols) "Status"

/-- One row of the successfully prepared table.  `cols` are the normalized column
names; fields of absent columns are masked to `none`. -/
def prepRow (today : ℤ) (cols : List String) (r : RawRow) : Row :=
  { Nome_Completo := if "Nome_Completo" ∈ cols then r.nome else none
    Data_de_Nascimento := if "Data_de_Nascimento" ∈ cols then r.nasc else none
    Data_de_Contratacao := if "Data_de_Contratacao" ∈ cols then r.contr else none
    Data_de_Demissao := if "Data_de_Demissao" ∈ cols then r.demis else none
    Area := if "Area" ∈ cols then r.area else none
    Nivel := if "Nivel" ∈ cols then r.nivel else none
    Cargo := if "Cargo" ∈ cols then r.cargo else none
    Salario_Base := if "Salario_Base" ∈ cols then r.salario else none
    Impostos := if "Impostos" ∈ cols then r.impostos else none
    Beneficios := if "Beneficios" ∈ cols then r.beneficios else none
    VT := if "VT" ∈ cols then r.vt else none
    VR := if "VR" ∈ cols then r.vr else none
    Sexo := if "Sexo" ∈ cols then normalizeSexo r.sexo else none
    Endereco := if "Endereco" ∈ cols then r.endereco else none
    Idade := if "Data_de_Nascimento" ∈ cols then r.nasc.map (ageOf today) else none
    Status := if "Data_de_Demissao" ∈ cols ∧ r.demis ≠ none then "Desligado" else "Ativo" }

/-- The processing inside the `try` block of `load_and_prepare_data` (lines 42-68).
Returns `none` when an exception escapes to the `except` handler: computing `Idade`
applies `.astype(int)` to the age series, which raises
`Cannot convert non-finite values (NA or inf) to integer` as soon as the birth-date
column exists and any of its cells coerced to `NaT`. -/
def prepare (today : ℤ) (raw : RawTable) : Option Table :=
  if "Data_de_Nascimento" ∈ raw.cols.map normalizeColName ∧ ∃ r ∈ raw.rows, r.nasc = none then
    none
  else
    some { cols := prepCols (raw.cols.map normalizeColName),
           rows := raw.rows.map (prepRow today (raw.cols.map normalizeColName)) }

/-- `load_and_prepare_data` (lines 30-72): missing file and unreadable file return an
empty frame with `success = False`; otherwise the `try` block either completes fully or
its exception is caught, again yielding an empty frame and `False`. -/
def load_and_prepare_data (today : ℤ) (inp : ExcelInput) : Table × Bool :=
  match inp with
  | ExcelInput.missingFile => (emptyTable, false)
  | ExcelInput.corrupt => (emptyTable, false)
  | ExcelInput.table raw =>
    match prepare today raw with
    | some t => (t, true)
    | none => (emptyTable, false)

/-- A guarded equality filter of the sidebar (lines 152-171, 180-185): shown only when
its column exists, applied only when the selection is not `Todos`. -/
def guardedFilter (col sel : String) (pred : Row → Bool) (t : Table) : Table :=
  if col ∈ t.cols ∧ sel ≠ "Todos" then { t with rows := t.rows.filter pred } else t

/-- Area filter (lines 152-157). -/
def applyArea (sel : String) : Table → Table :=
  guardedFilter "Area" sel (fun r => decide (r.Area = some sel))

/-- Nivel filter (lines 159-164). -/
def applyNivel (sel : String) : Table → Table :=
  guardedFilter "Nivel" sel (fun r => decide (r.Nivel = some sel))

/-- Cargo filter (lines 166-171). -/
def applyCargo (sel : String) : Table → Table :=
  guardedFilter "Cargo" sel (fun r => decide (r.Cargo = some sel))

/-- Status filter (lines 180-185). -/
def applyStatus (sel : String) : Table → Table :=
  guardedFilter "Status" sel (fun r => decide (r.Status = sel))

/-- The non-null salary values of the current view (`df_filtered["Salario_Base"].dropna()`). -/
def salVals (t : Table) : List ℚ := t.rows.filterMap (fun r => r.Salario_Base)

/-- Salary range filter (lines 173-178): shown only when the salary column exists and has
a non-null value in the current view; a null salary satisfies neither comparison, so such
rows are dropped whenever the filter is active. -/
def applySalario (lo hi : ℤ) (t : Table) : Table :=
  if "Salario_Base" ∈ t.cols ∧ salVals t ≠ [] then
    { t with rows := t.rows.filter (fun r =>
        match r.Salario_Base with
        | some s => decide ((lo : ℚ) ≤ s ∧ s ≤ (hi : ℚ))
        | none => false) }
  else t

/-- The slider's data-derived lower bound, `int(df_filtered["Salario_Base"].min())`. -/
def minSalInt (t : Table) : Option ℤ := (salVals t).min?.map truncQ

/-- The slider's data-derived upper bound, `int(df_filtered["Salario_Base"].max())`. -/
def maxSalInt (t : Table) : Option ℤ := (salVals t).max?.map truncQ

/-- One atom of the modelled fragment of Python regular expressions: a literal
character or the wildcard dot. -/
inductive Atom
  | lit (c : Char)
  | dot
deriving DecidableEq

/-- The metacharacters of Python regular expressions. -/
def regexMeta : List Char :=
  ['.', '^', '$', '*', '+', '?', '\x7b', '\x7d', '[', ']', '(', ')', '|', '\\']

/-- Parse a pattern of the literal/wildcard fragment; `none` when the pattern uses any
other regex metacharacter (outside the modelled fragment). -/
def parseLitDot : List Char → Option (List Atom)
  | [] => some []
  | c :: rest =>
    if c = '.' then (parseLitDot rest).map (fun as => Atom.dot :: as)
    else if c ∈ regexMeta then none
    else (parseLitDot rest).map (fun as => Atom.lit c :: as)

/-- Match one atom against one character, with `re.IGNORECASE` semantics; the wildcard
does not match a newline. -/
def atomMatch : Atom → Char → Bool
  | Atom.lit p, c => p.toLower = c.toLower
  | Atom.dot, c => c ≠ '\n'

/-- Does the pattern match a prefix of the text? -/
def matchHere : List Atom → List Char → Bool
  | [], _ => true
  | _ :: _, [] => false
  | a :: as, c :: cs => atomMatch a c && matchHere as cs

/-- `re.search`: does the pattern match starting at some position of the text? -/
def reSearch (pat : List Atom) : List Char → Bool
  | [] => matchHere pat []
  | c :: cs => matchHere pat (c :: cs) || reSearch pat cs

/-- `Series.str.contains(q, case=False, na=False)` applied to one non-null cell: the
query is a Python regular expression searched case-insensitively.  The model covers the
fragment of patterns built from literal characters and the wildcard dot; a pattern using
any other metacharacter is outside the model and returns `false` here. -/
def pyContains (q nm : String) : Bool :=
  match parseLitDot q.data with
  | some pat => reSearch pat nm.data
  | none => false

/-- Name search (lines 189-191): applied whenever the query is non-empty, with no
column-existence guard — a missing `Nome_Completo` column raises `KeyError`.  Null
names never match (`na=False`). -/
def applySearch (q : String) (t : Table) : Except String Table :=
  if q = "" then Except.ok t
  else if "Nome_Completo" ∈ t.cols then
    Except.ok { t with rows := t.rows.filter (fun r =>
      match r.Nome_Completo with
      | some nm => pyContains q nm
      | none => false) }
  else Except.error "KeyError: Nome_Completo"

/-- The sidebar's filter parameters.  `salLo`/`salHi` are the slider value; they are only
consulted when the slider is shown. -/
structure Params where
  area : String := "Todos"
  nivel : String := "Todos"
  cargo : String := "Todos"
  salLo : ℤ := 0
  salHi : ℤ := 0
  status : String := "Todos"
  search : String := ""
deriving DecidableEq

/-- The full sidebar pipeline (lines 150-191), in source order:
Area, Nivel, Cargo, salary range, Status, name search. -/
def applyFilters (p : Params) (t : Table) : Except String Table :=
  applySearch p.search
    (applyStatus p.status
      (applySalario p.salLo p.salHi
        (applyCargo p.cargo
          (applyNivel p.nivel
            (applyArea p.area t)))))

/-- Every parameter at its identity value: `Todos` selections, empty search, and the
salary slider left at its data-derived default range. -/
def identityParams (t : Table) : Params :=
  { salLo := (minSalInt t).getD 0, salHi := (maxSalInt t).getD 0 }

/-- Annualized payroll KPI (lines 259-263): `df_filtered["Salario_Base"].sum() * 12`
when the salary column exists (`.sum()` skips nulls), else the `N/A` branch (`none`). -/
def folha_salarial_anual (t : Table) : Option ℚ :=
  if "Salario_Base" ∈ t.cols then
    some ((t.rows.map (fun r => r.Salario_Base.getD 0)).sum * 12)
  else none

/-- Mean salary KPI (lines 266-270); `none` is the `N/A` branch.  (When every salary is
null, pandas yields `NaN`, modelled by the division-by-zero convention; no theorem
consults that value.) -/
def salario_medio (t : Table) : Option ℚ :=
  if "Salario_Base" ∈ t.cols ∧ 0 < t.rows.length then
    some ((salVals t).sum / ((salVals t).length : ℚ))
  else none

/-- Mean age KPI (lines 273-277); `none` is the `N/A` branch. -/
def idade_media (t : Table) : Option ℚ :=
  if "Idade" ∈ t.cols ∧ 0 < t.rows.length then
    some (((t.rows.filterMap (fun r => r.Idade)).map (fun n => (n : ℚ))).sum /
      ((t.rows.filterMap (fun r => r.Idade)).length : ℚ))
  else none

/-- Year of a day number under the proleptic Gregorian calendar (`Timestamp.year`). -/
def civilYear (z : ℤ) : ℤ :=
  let w := z + 719468
  let era := Int.fdiv w 146097
  let doe := w - era * 146097
  let yoe := (doe - doe / 1460 + doe / 36524 - doe / 146096) / 365
  let y := yoe + era * 400
  let doy := doe - (365 * yoe + yoe / 4 - yoe / 100)
  let mp := (5 * doy + 2) / 153
  let m := mp + (if mp < 10 then 3 else -9)
  if m ≤ 2 then y + 1 else y

/-- Year-to-date hires KPI (line 253):
`len(df_filtered[df_filtered["Data_de_Contratacao"].dt.year == today.year])`, with no
column-existence guard — a missing hire-date column raises `KeyError`.  A null hire
date compares unequal to the year. -/
def novas_contratacoes (today : ℤ) (t : Table) : Except String ℕ :=
  if "Data_de_Contratacao" ∈ t.cols then
    Except.ok (t.rows.filter (fun r =>
      match r.Data_de_Contratacao with
      | some d => decide (civilYear d = civilYear today)
      | none => false)).length
  else Except.error "KeyError: Data_de_Contratacao"

/-- Male headcount KPI (line 255): `df_filtered[df_filtered.get("Sexo") == 'M']`.  When
the column is missing, `.get` returns `None`, `None == 'M'` is the scalar `False`, and
indexing the frame with it raises `KeyError: False`. -/
def masculino_count (t : Table) : Except String ℕ :=
  if "Sexo" ∈ t.cols then
    Except.ok (t.rows.filter (fun r => decide (r.Sexo = some "M"))).length
  else Except.error "KeyError: False"

/-- Female headcount KPI (line 256), same shape as the male count. -/
def feminino_count (t : Table) : Except String ℕ :=
  if "Sexo" ∈ t.cols then
    Except.ok (t.rows.filter (fun r => decide (r.Sexo = some "F"))).length
  else Except.error "KeyError: False"

/-- Age bucket of `pd.cut(bins := [0,18,25,35,45,55,65,100], right := False)`
(lines 359-361); out-of-range ages get no label. -/
def faixaOf (a : ℤ) : Option String :=
  if a < 0 then none
  else if a < 18 then some "0-18"
  else if a < 25 then some "19-25"
  else if a < 35 then some "26-35"
  else if a < 45 then some "36-45"
  else if a < 55 then some "46-55"
  else if a < 65 then some "56-65"
  else if a < 100 then some "65+"
  else none

/-- Row value of `Custo_Total_Mensal` (lines 417-419): sum over the cost-component
columns that exist, nulls counting as zero, the empty sum being zero. -/
def custoOf (cols : List String) (r : Row) : ℚ :=
  (if "Salario_Base" ∈ cols then r.Salario_Base.getD 0 else 0) +
  (if "Impostos" ∈ cols then r.Impostos.getD 0 else 0) +
  (if "Beneficios" ∈ cols then r.Beneficios.getD 0 else 0) +
  (if "VT" ∈ cols then r.VT.getD 0 else 0) +
  (if "VR" ∈ cols then r.VR.getD 0 else 0)

/-- One attempted match of the region regex `-\s(..),?$` starting at the head of the
list: a dash, one whitespace character, two non-newline characters, an optional comma,
end of string. -/
def estadoHere : List Char → Option (List Char)
  | '-' :: w :: c1 :: c2 :: rest =>
    if w.isWhitespace && c1 ≠ '\n' && c2 ≠ '\n' && (rest = [] || rest = [',']) then
      some [c1, c2]
    else none
  | _ => none

/-- `re.search` scan for the region regex: leftmost starting position wins. -/
def estadoSearch : List Char → Option (List Char)
  | [] => none
  | c :: cs =>
    match estadoHere (c :: cs) with
    | some x => some x
    | none => estadoSearch cs

/-- `str.extract(r'-\s(..),?$').fillna("Outro")` on one address cell (lines 437-438). -/
def extractEstado (addr : Option String) : String :=
  match addr with
  | none => "Outro"
  | some s =>
    match estadoSearch s.data with
    | some cs => String.mk cs
    | none => "Outro"

/-- Chart mutation 1 (line 361): add the `Faixa_Etaria` column when `Idade` exists. -/
def faixaStage (t : Table) : Table :=
  if "Idade" ∈ t.cols then
    { cols := addName t.cols "Faixa_Etaria",
      rows := t.rows.map (fun r => { r with Faixa_Etaria := r.Idade.bind faixaOf }) }
  else t

/-- Chart mutation 2 (lines 417-419): add `Custo_Total_Mensal` when it is absent. -/
def custoStage (t : Table) : Table :=
  if "Custo_Total_Mensal" ∈ t.cols then t
  else
    { cols := addName t.cols "Custo_Total_Mensal",
      rows := t.rows.map (fun r => { r with Custo_Total_Mensal := some (custoOf t.cols r) }) }

/-- Chart mutation 3 (lines 436-438): add `Estado` when a column literally named
`Endereço` exists — a name the canonicalization can never produce. -/
def estadoStage (t : Table) : Table :=
  if "Endereço" ∈ t.cols then
    { cols := addName t.cols "Estado",
      rows := t.rows.map (fun r => { r with Estado := some (extractEstado r.Endereco) }) }
  else t

/-- The mutations the chart section performs on `df_filtered` before the download
section, in source order. -/
def chartStage (t : Table) : Table := estadoStage (custoStage (faixaStage t))

/-- The three presentation-only columns the on-screen table drops (line 472). -/
def transientCols : List String := ["Estado", "Faixa_Etaria", "Custo_Total_Mensal"]

/-- Clear the transient presentation fields of a row. -/
def eraseTransient (r : Row) : Row :=
  { r with Estado := none, Faixa_Etaria := none, Custo_Total_Mensal := none }

/-- The table serialized by the CSV download (line 479): `df_filtered` exactly as the
chart section left it. -/
def csvExport (view : Table) : Table := chartStage view

/-- The table serialized by the Excel download (lines 491-493): the same frame. -/
def excelExport (view : Table) : Table := chartStage view

/-- The on-screen table (line 472): the same frame with the transient columns dropped. -/
def displayTable (view : Table) : Table :=
  let t := chartStage view
  { cols := t.cols.filter (fun c => decide (c ∉ transientCols)),
    rows := t.rows.map eraseTransient }

/-- Modelled from the spec (§6, export boundary): both exports contain exactly the
filtered rows' normalized and derived columns, excluding the transient
presentation-only columns (age-bucket label, region code, total monthly cost). -/
def specExport (view : Table) : Table :=
  { cols := view.cols.filter (fun c => decide (c ∉ transientCols)),
    rows := view.rows.map eraseTransient }

/-- Case-insensitive prefix comparison of character lists. -/
def isPrefixCI : List Char → List Char → Bool
  | [], _ => true
  | _ :: _, [] => false
  | a :: as, b :: bs => decide (a.toLower = b.toLower) && isPrefixCI as bs

/-- Case-insensitive substring containment of character lists. -/
def isSubstrCI : List Char → List Char → Bool
  | q, [] => q.isEmpty
  | q, l@(_ :: bs) => isPrefixCI q l || isSubstrCI q bs

/-- The spec's description of the name search predicate: the full name contains the
search string as a substring, compared case-insensitively. -/
def substrCI (q nm : String) : Bool := isSubstrCI q.data nm.data

/-! ### Concrete inputs used by witnesses and counterexamples -/

def rawC4 : RawTable :=
  { cols := ["Data_de_Demissao"], rows := [{ demis := some 100 }, {}] }

def tC4 : Table := (load_and_prepare_data 0 (ExcelInput.table rawC4)).1

def rowC4 : Row := { Data_de_Demissao := some 100, Status := "Desligado" }

def rawC8 : RawTable :=
  { cols := ["Sexo"],
    rows := [{ sexo := some " m " }, { sexo := some "F" }, { sexo := some "x" }, {}] }

def tC8 : Table := (load_and_prepare_data 0 (ExcelInput.table rawC8)).1

def rawC2 : RawTable :=
  { cols := ["Data_de_Nascimento"], rows := [{ nasc := none }, { nasc := some 7000 }] }

def rawC2ok : RawTable :=
  { cols := ["Data_de_Nascimento"], rows := [{ nasc := some 7000 }] }

def tC5 : Table :=
  { cols := ["Salario_Base", "Status"],
    rows := [{ Salario_Base := some 1000 }, { Salario_Base := some 500 }] }

def tC5noSal : Table := { cols := ["Area", "Status"], rows := [{ Area := some "TI" }] }

def tC6 : Table :=
  { cols := ["Nome_Completo", "Status"], rows := [{ Nome_Completo := some "Ana" }] }

def tC6w : Table :=
  { cols := ["Nome_Completo", "Status"],
    rows := [{ Nome_Completo := some "Ana Silva" },
             { Nome_Completo := some "MARIANA Costa" }, {}] }

def tC6wKept : Table :=
  { cols := ["Nome_Completo", "Status"],
    rows := [{ Nome_Completo := some "Ana Silva" },
             { Nome_Completo := some "MARIANA Costa" }] }

def rawC7 : RawTable := { cols := ["Area"], rows := [{ area := some "TI" }] }

def tC7w : Table := { cols := ["Status"], rows := [{}] }

def rawC1a : RawTable :=
  { cols := ["Salario_Base"], rows := [{ salario := some 5000 }, {}] }

def tC1a : Table := (load_and_prepare_data 0 (ExcelInput.table rawC1a)).1

/-- The fractional salary 100.5, written as an explicit reduced fraction. -/
def qFrac : ℚ := ⟨201, 2, by decide, by decide⟩

def rawC1b : RawTable :=
  { cols := ["Salario_Base"], rows := [{ salario := some qFrac }] }

def tC1b : Table := (load_and_prepare_data 0 (ExcelInput.table rawC1b)).1

def rawC1w : RawTable :=
  { cols := ["Salario_Base"], rows := [{ salario := some 3000 }, { salario := some 5000 }] }

def tC1w : Table :=
  { cols := ["Salario_Base", "Status"],
    rows := [{ Salario_Base := some 3000 }, { Salario_Base := some 5000 }] }

def rawC9 : RawTable := { cols := ["Nome_Completo"], rows := [{ nome := some "Ana" }] }

def tC9 : Table := (load_and_prepare_data 0 (ExcelInput.table rawC9)).1

/-! ### Helper lemmas -/

theorem list_filter_swap {α : Type} (p q : α → Bool) (l : List α) :
    (l.filter p).filter q = (l.filter q).filter p := by
  induction l with
  | nil => rfl
  | cons a l ih =>
    by_cases hp : p a <;> by_cases hq : q a <;> simp [List.filter_cons, hp, hq, ih]

theorem guardedFilter_cols (c s : String) (p : Row → Bool) (t : Table) :
    (guardedFilter c s p t).cols = t.cols := by
  unfold guardedFilter; split <;> rfl

theorem guardedFilter_todos (c : String) (p : Row → Bool) (t : Table) :
    guardedFilter c "Todos" p t = t := by
  simp [guardedFilter]

theorem guardedFilter_comm {c1 s1 : String} {p1 : Row → Bool} {c2 s2 : String}
    {p2 : Row → Bool} {t : Table} :
    guardedFilter c1 s1 p1 (guardedFilter c2 s2 p2 t) =
    guardedFilter c2 s2 p2 (guardedFilter c1 s1 p1 t) := by
  unfold guardedFilter
  by_cases h1 : c1 ∈ t.cols ∧ s1 ≠ "Todos" <;>
    by_cases h2 : c2 ∈ t.cols ∧ s2 ≠ "Todos" <;>
      simp [h1, h2, list_filter_swap, Bool.and_comm]

theorem guardedFilter_idem {c s : String} {p : Row → Bool} {t : Table} :
    guardedFilter c s p (guardedFilter c s p t) = guardedFilter c s p t := by
  unfold guardedFilter
  by_cases h : c ∈ t.cols ∧ s ≠ "Todos" <;>
    simp [h, List.filter_filter]

theorem mem_of_mem_guardedFilter {c s : String} {p : Row → Bool} {t : Table} {r : Row}
    (h : r ∈ (guardedFilter c s p t).rows) : r ∈ t.rows := by
  unfold guardedFilter at h
  split at h
  · exact List.mem_of_mem_filter h
  · exact h

theorem applySalario_cols (lo hi : ℤ) (t : Table) : (applySalario lo hi t).cols = t.cols := by
  unfold applySalario; split <;> rfl

theorem applyArea_cols (s : String) (t : Table) : (applyArea s t).cols = t.cols :=
  guardedFilter_cols _ _ _ _

theorem applyNivel_cols (s : String) (t : Table) : (applyNivel s t).cols = t.cols :=
  guardedFilter_cols _ _ _ _

theorem applyCargo_cols (s : String) (t : Table) : (applyCargo s t).cols = t.cols :=
  guardedFilter_cols _ _ _ _

theorem applyStatus_cols (s : String) (t : Table) : (applyStatus s t).cols = t.cols :=
  guardedFilter_cols _ _ _ _

theorem mem_of_mem_applySalario {lo hi : ℤ} {t : Table} {r : Row}
    (h : r ∈ (applySalario lo hi t).rows) : r ∈ t.rows := by
  unfold applySalario at h
  split at h
  · exact List.mem_of_mem_filter h
  · exact h

theorem applySearch_ok {q : String} {t view : Table}
    (h : applySearch q t = Except.ok view) :
    view.cols = t.cols ∧ ∀ r ∈ view.rows, r ∈ t.rows := by
  unfold applySearch at h
  split at h
  · cases h; exact ⟨rfl, fun r hr => hr⟩
  · split at h
    · cases h; exact ⟨rfl, fun r hr => List.mem_of_mem_filter hr⟩
    · cases h

theorem applyFilters_ok {p : Params} {t view : Table}
    (h : applyFilters p t = Except.ok view) :
    view.cols = t.cols ∧ ∀ r ∈ view.rows, r ∈ t.rows := by
  unfold applyFilters at h
  have hs := applySearch_ok h
  refine ⟨?_, ?_⟩
  · rw [hs.1, applyStatus_cols, applySalario_cols, applyCargo_cols,
      applyNivel_cols, applyArea_cols]
  · intro r hr
    have h1 := hs.2 r hr
    unfold applyStatus at h1
    have h2 := mem_of_mem_applySalario (mem_of_mem_guardedFilter h1)
    unfold applyCargo applyNivel applyArea at h2
    exact mem_of_mem_guardedFilter (mem_of_mem_guardedFilter (mem_of_mem_guardedFilter h2))

theorem load_ok {today : ℤ} {inp : ExcelInput} {t : Table}
    (h : load_and_prepare_data today inp = (t, true)) :
    ∃ raw, inp = ExcelInput.table raw ∧ prepare today raw = some t := by
  cases inp with
  | missingFile => simp [load_and_prepare_data, emptyTable] at h
  | corrupt => simp [load_and_prepare_data, emptyTable] at h
  | table raw =>
    refine ⟨raw, rfl, ?_⟩
    cases hp : prepare today raw with
    | some t2 =>
      have ht : t2 = t := by simpa [load_and_prepare_data, hp] using h
      exact congrArg some ht
    | none => simp [load_and_prepare_data, hp, emptyTable] at h

theorem prepare_some {today : ℤ} {raw : RawTable} {t : Table}
    (h : prepare today raw = some t) :
    t.cols = prepCols (raw.cols.map normalizeColName)
    ∧ t.rows = raw.rows.map (prepRow today (raw.cols.map normalizeColName)) := by
  unfold prepare at h
  split at h
  · cases h
  · cases h; exact ⟨rfl, rfl⟩

theorem mem_addName {cs : List String} {n m : String} :
    m ∈ addName cs n ↔ m ∈ cs ∨ m = n := by
  unfold addName
  split
  · next hn => constructor
               · exact fun h => Or.inl h
               · rintro (h | rfl)
                 · exact h
                 · exact hn
  · simp

/-! ### C10 -/

/-- C10: `load` returns an empty table with `success = false` whenever the file is
missing or unreadable, any exception during processing is caught and yields the same,
and `success = true` only ever comes with the fully processed table. -/
theorem C10_load_failure (today : ℤ) :
    (∀ inp, inp = ExcelInput.missingFile ∨ inp = ExcelInput.corrupt →
      load_and_prepare_data today inp = (emptyTable, false))
    ∧ (∀ raw, prepare today raw = none →
      load_and_prepare_data today (ExcelInput.table raw) = (emptyTable, false))
    ∧ (∀ inp t, load_and_prepare_data today inp = (t, true) →
      ∃ raw, inp = ExcelInput.table raw ∧ prepare today raw = some t) := by
  refine ⟨?_, ?_, ?_⟩
  · rintro inp (rfl | rfl) <;> rfl
  · intro raw h
    simp [load_and_prepare_data, h]
  · intro inp t h
    exact load_ok h

/-- C10 witness: the theorem applied to a concrete missing-file input. -/
theorem C10_load_failure_witness :
    load_and_prepare_data 0 ExcelInput.missingFile = (emptyTable, false) :=
  (C10_load_failure 0).1 ExcelInput.missingFile (Or.inl rfl)

/-! ### C3 -/

/-- C3: the Area, Nivel and Cargo equality filters commute — every application order
produces the same table as the source's Area → Nivel → Cargo order — and each filter
is idempotent. -/
theorem C3_filters_commute_idempotent (t : Table) (a n c : String) :
    (applyNivel n (applyCargo c (applyArea a t)) = applyCargo c (applyNivel n (applyArea a t))
    ∧ applyCargo c (applyArea a (applyNivel n t)) = applyCargo c (applyNivel n (applyArea a t))
    ∧ applyArea a (applyCargo c (applyNivel n t)) = applyCargo c (applyNivel n (applyArea a t))
    ∧ applyNivel n (applyArea a (applyCargo c t)) = applyCargo c (applyNivel n (applyArea a t))
    ∧ applyArea a (applyNivel n (applyCargo c t)) = applyCargo c (applyNivel n (applyArea a t)))
    ∧ (applyArea a (applyArea a t) = applyArea a t
    ∧ applyNivel n (applyNivel n t) = applyNivel n t
    ∧ applyCargo c (applyCargo c t) = applyCargo c t) := by
  unfold applyArea applyNivel applyCargo
  have h3 :
      guardedFilter "Area" a (fun r => decide (r.Area = some a))
        (guardedFilter "Cargo" c (fun r => decide (r.Cargo = some c))
          (guardedFilter "Nivel" n (fun r => decide (r.Nivel = some n)) t)) =
      guardedFilter "Cargo" c (fun r => decide (r.Cargo = some c))
        (guardedFilter "Nivel" n (fun r => decide (r.Nivel = some n))
          (guardedFilter "Area" a (fun r => decide (r.Area = some a)) t)) :=
    guardedFilter_comm.trans (congrArg _ guardedFilter_comm)
  refine ⟨⟨guardedFilter_comm, congrArg _ guardedFilter_comm, h3, ?_, ?_⟩,
    guardedFilter_idem, guardedFilter_idem, guardedFilter_idem⟩
  · exact guardedFilter_comm.trans ((congrArg _ guardedFilter_comm).trans h3)
  · exact (congrArg _ guardedFilter_comm).trans h3

/-! ### C4 -/

theorem mem_prepCols {cols : List String} {m : String} (h1 : m ≠ "Idade") (h2 : m ≠ "Status") :
    m ∈ prepCols cols ↔ m ∈ cols := by
  unfold prepCols
  split <;> simp [mem_addName, h1, h2]

/-- C4: after a successful load, a row's `Status` is `Desligado` exactly when the
termination-date column exists and that row's termination date is non-null; when the
column is absent every row is `Ativo`. -/
theorem C4_status_derivation (today : ℤ) (inp : ExcelInput) (t : Table)
    (hl : load_and_prepare_data today inp = (t, true)) :
    ∀ r ∈ t.rows,
      (r.Status = "Desligado" ↔ ("Data_de_Demissao" ∈ t.cols ∧ r.Data_de_Demissao ≠ none))
      ∧ ("Data_de_Demissao" ∉ t.cols → r.Status = "Ativo") := by
  obtain ⟨raw, rfl, hp⟩ := load_ok hl
  obtain ⟨hc, hrows⟩ := prepare_some hp
  intro r hr
  rw [hrows] at hr
  obtain ⟨rr, hrr, rfl⟩ := List.mem_map.mp hr
  have hmem : ("Data_de_Demissao" ∈ t.cols) ↔
      ("Data_de_Demissao" ∈ raw.cols.map normalizeColName) := by
    rw [hc]; exact mem_prepCols (by decide) (by decide)
  by_cases hd : "Data_de_Demissao" ∈ raw.cols.map normalizeColName
  · by_cases hdm : rr.demis = none
    · constructor
      · simp [prepRow, hd, hdm]
      · intro hnot; exact absurd (hmem.mpr hd) hnot
    · constructor
      · simp [prepRow, hd, hdm, hmem]
      · intro hnot; exact absurd (hmem.mpr hd) hnot
  · have hnot : "Data_de_Demissao" ∉ t.cols := fun hx => hd (hmem.mp hx)
    constructor
    · simp [prepRow, hd, hnot]
    · intro _; simp [prepRow, hd]




/-- C4 witness: the theorem applied to a concrete two-row table with one termination
date; the terminated row's status is `Desligado`. -/
theorem C4_status_derivation_witness :
    "Data_de_Demissao" ∈ tC4.cols ∧ rowC4.Status = "Desligado" := by
  have h := C4_status_derivation 0 (ExcelInput.table rawC4) tC4 (by decide) rowC4 (by decide)
  exact ⟨by decide, h.1.mpr ⟨by decide, by decide⟩⟩

/-! ### C8 -/

theorem normalizeSexo_cases (x : Option String) :
    normalizeSexo x = some "M" ∨ normalizeSexo x = some "F" ∨ normalizeSexo x = none := by
  unfold normalizeSexo
  split
  · exact Or.inl rfl
  · split
    · exact Or.inr (Or.inl rfl)
    · exact Or.inr (Or.inr rfl)

/-- C8: after a successful load every row's gender is `M`, `F` or missing, and the
invariant is preserved by the whole filter pipeline, which only narrows the row set. -/
theorem C8_gender_invariant (today : ℤ) (inp : ExcelInput) (t : Table)
    (hl : load_and_prepare_data today inp = (t, true)) :
    (∀ r ∈ t.rows, r.Sexo = some "M" ∨ r.Sexo = some "F" ∨ r.Sexo = none)
    ∧ (∀ p view, applyFilters p t = Except.ok view →
        ∀ r ∈ view.rows, r.Sexo = some "M" ∨ r.Sexo = some "F" ∨ r.Sexo = none) := by
  obtain ⟨raw, rfl, hp⟩ := load_ok hl
  obtain ⟨hc, hrows⟩ := prepare_some hp
  have base : ∀ r ∈ t.rows, r.Sexo = some "M" ∨ r.Sexo = some "F" ∨ r.Sexo = none := by
    intro r hr
    rw [hrows] at hr
    obtain ⟨rr, hrr, rfl⟩ := List.mem_map.mp hr
    by_cases hs : "Sexo" ∈ raw.cols.map normalizeColName
    · simpa [prepRow, hs] using normalizeSexo_cases rr.sexo
    · simp [prepRow, hs]
  refine ⟨base, ?_⟩
  intro p view hv r hr
  exact base r ((applyFilters_ok hv).2 r hr)



/-- C8 witness: the theorem applied to a concrete table whose raw gender cells are
`" m "`, `"F"`, `"x"` and missing; every loaded row satisfies the invariant. -/
theorem C8_gender_invariant_witness :
    ({ Sexo := some "M" } : Row).Sexo = some "M" ∨
      ({ Sexo := some "M" } : Row).Sexo = some "F" ∨
      ({ Sexo := some "M" } : Row).Sexo = none := by
  have h := C8_gender_invariant 0 (ExcelInput.table rawC8) tC8 (by decide)
  exact h.1 { Sexo := some "M" } (by decide)

/-! ### C2 -/



/-- C2: evaluation at the failing input.  A table whose birth-date column parses in one
row and coerces to `NaT` in another makes the whole load fail (`.astype(int)` raises on
the non-finite age), returning an empty table with `success = false` — the claimed
per-cell degradation with a successful load does not happen.  The same table without
the unparseable cell loads with `success = true`. -/
theorem C2_per_cell_coercion_eval :
    load_and_prepare_data 0 (ExcelInput.table rawC2) = (emptyTable, false)
    ∧ (load_and_prepare_data 0 (ExcelInput.table rawC2ok)).2 = true := by
  constructor
  · decide
  · decide

/-! ### C5 -/

/-- C5: when the salary column exists, the annualized payroll is 12 times the sum of
the (non-null) salaries over exactly the rows of the view — removing any row `r`
removes exactly `r`'s contribution from the sum — and when the column is absent the
metric is the `N/A` value. -/
theorem C5_folha_salarial (t : Table) :
    ("Salario_Base" ∈ t.cols →
      folha_salarial_anual t = some ((t.rows.map (fun r => r.Salario_Base.getD 0)).sum * 12)
      ∧ ∀ r ∈ t.rows,
        folha_salarial_anual t =
          some ((((t.rows.erase r).map (fun x => x.Salario_Base.getD 0)).sum +
            r.Salario_Base.getD 0) * 12))
    ∧ ("Salario_Base" ∉ t.cols → folha_salarial_anual t = none) := by
  constructor
  · intro hc
    refine ⟨by simp [folha_salarial_anual, hc], ?_⟩
    intro r hr
    have hperm : List.Perm t.rows (r :: t.rows.erase r) := List.perm_cons_erase hr
    have hsum : (t.rows.map (fun x => x.Salario_Base.getD 0)).sum =
        ((r :: t.rows.erase r).map (fun x => x.Salario_Base.getD 0)).sum :=
      (hperm.map (fun x => x.Salario_Base.getD 0)).sum_eq
    rw [folha_salarial_anual, if_pos hc, hsum]
    simp only [List.map_cons, List.sum_cons, Option.some.injEq]
    ring
  · intro hc
    simp [folha_salarial_anual, hc]



/-- C5 witness: the theorem applied to a concrete two-row view gives 12 × 1500, and to
a concrete view without a salary column gives the `N/A` value. -/
theorem C5_folha_salarial_witness :
    folha_salarial_anual tC5 = some 18000 ∧ folha_salarial_anual tC5noSal = none := by
  constructor
  · refine ((C5_folha_salarial tC5).1 (by decide)).1.trans ?_
    simp only [tC5, List.map_cons, List.map_nil, List.sum_cons, List.sum_nil,
      Option.getD_some, Option.some.injEq]
    norm_num
  · exact (C5_folha_salarial tC5noSal).2 (by decide)

/-! ### C6 -/


theorem matchHere_lits (l : List Char) : ∀ text : List Char,
    matchHere (l.map Atom.lit) text = isPrefixCI l text := by
  induction l with
  | nil => intro text; cases text <;> rfl
  | cons a as ih =>
    intro text
    cases text with
    | nil => rfl
    | cons c cs => simp [matchHere, isPrefixCI, atomMatch, ih]

theorem reSearch_lits (l text : List Char) :
    reSearch (l.map Atom.lit) text = isSubstrCI l text := by
  induction text with
  | nil => cases l <;> rfl
  | cons c cs ih => simp [reSearch, isSubstrCI, matchHere_lits, ih]

theorem parseLitDot_lits (l : List Char) (h : ∀ c ∈ l, c ∉ regexMeta) :
    parseLitDot l = some (l.map Atom.lit) := by
  induction l with
  | nil => rfl
  | cons c cs ih =>
    have hc : c ∉ regexMeta := h c (List.mem_cons_self c cs)
    have hdot : ¬ c = '.' := fun e => hc (by rw [e]; decide)
    simp [parseLitDot, hdot, hc, ih (fun x hx => h x (List.mem_cons_of_mem c hx))]

theorem pyContains_eq_substrCI (q nm : String) (h : ∀ c ∈ q.data, c ∉ regexMeta) :
    pyContains q nm = substrCI q nm := by
  unfold pyContains substrCI
  rw [parseLitDot_lits q.data h]
  exact reSearch_lits q.data nm.data

/-- C6 counterexample: the search string is a regular expression, not a literal
substring — searching `a.a` keeps the row named `Ana` (the dot matches `n`) even
though `a.a` is not a case-insensitive substring of `Ana`, so the claim as stated
fails at this input. -/
theorem C6_name_search_falsified :
    applySearch "a.a" tC6 = Except.ok tC6 ∧ substrCI "a.a" "Ana" = false := by
  exact ⟨by decide, by decide⟩

/-- C6 (amended): for a non-empty search string containing no regex metacharacter, the
name filter keeps exactly the rows whose non-null name contains the string
case-insensitively as a substring; rows with null names never match. -/
theorem C6_name_search_amended (q : String) (hq : ¬ q = "")
    (hlit : ∀ c ∈ q.data, c ∉ regexMeta) (t : Table) (hcol : "Nome_Completo" ∈ t.cols) :
    applySearch q t = Except.ok { t with rows := t.rows.filter (fun r =>
      match r.Nome_Completo with
      | some nm => substrCI q nm
      | none => false) } := by
  unfold applySearch
  rw [if_neg hq, if_pos hcol]
  refine congrArg Except.ok (congrArg (fun rs => { t with rows := rs }) ?_)
  refine List.filter_congr ?_
  intro r _
  cases hnm : r.Nome_Completo with
  | none => rfl
  | some nm => simpa using pyContains_eq_substrCI q nm hlit



/-- C6 witness: searching `ana` keeps `Ana Silva` and `MARIANA Costa` and drops the
row with a null name. -/
theorem C6_name_search_amended_witness :
    applySearch "ana" tC6w = Except.ok tC6wKept := by
  have h := C6_name_search_amended "ana" (by decide) (by decide) tC6w (by decide)
  rw [h]
  decide

/-! ### C7 -/


/-- C7 counterexample: a successfully loaded table that lacks the hire-date and
full-name columns makes the year-to-date-hires metric raise `KeyError`, and a
non-empty name search raise `KeyError` — missing optional columns are not always
degraded gracefully. -/
theorem C7_missing_column_falsified :
    (load_and_prepare_data 0 (ExcelInput.table rawC7)).2 = true
    ∧ novas_contratacoes 0 (load_and_prepare_data 0 (ExcelInput.table rawC7)).1 =
        Except.error "KeyError: Data_de_Contratacao"
    ∧ applySearch "x" (load_and_prepare_data 0 (ExcelInput.table rawC7)).1 =
        Except.error "KeyError: Nome_Completo" := by
  exact ⟨by decide, by decide, by decide⟩

/-- C7 (amended): the sidebar filters and the `N/A`-guarded metrics are skipped or
degraded when their column is missing, but the name search, the year-to-date hire
count and the gender counts access their columns unguarded and raise `KeyError`. -/
theorem C7_missing_columns_amended :
    (∀ t s, "Area" ∉ t.cols → applyArea s t = t)
    ∧ (∀ t s, "Nivel" ∉ t.cols → applyNivel s t = t)
    ∧ (∀ t s, "Cargo" ∉ t.cols → applyCargo s t = t)
    ∧ (∀ t lo hi, "Salario_Base" ∉ t.cols → applySalario lo hi t = t)
    ∧ (∀ t s, "Status" ∉ t.cols → applyStatus s t = t)
    ∧ (∀ t, "Salario_Base" ∉ t.cols →
        folha_salarial_anual t = none ∧ salario_medio t = none)
    ∧ (∀ t, "Idade" ∉ t.cols → idade_media t = none)
    ∧ (∀ t q, ¬ q = "" → "Nome_Completo" ∉ t.cols →
        applySearch q t = Except.error "KeyError: Nome_Completo")
    ∧ (∀ (today : ℤ) t, "Data_de_Contratacao" ∉ t.cols →
        novas_contratacoes today t = Except.error "KeyError: Data_de_Contratacao")
    ∧ (∀ t, "Sexo" ∉ t.cols →
        masculino_count t = Except.error "KeyError: False"
        ∧ feminino_count t = Except.error "KeyError: False") := by
  refine ⟨?_, ?_, ?_, ?_, ?_, ?_, ?_, ?_, ?_, ?_⟩
  · intro t s h; simp [applyArea, guardedFilter, h]
  · intro t s h; simp [applyNivel, guardedFilter, h]
  · intro t s h; simp [applyCargo, guardedFilter, h]
  · intro t lo hi h; simp [applySalario, h]
  · intro t s h; simp [applyStatus, guardedFilter, h]
  · intro t h; exact ⟨by simp [folha_salarial_anual, h], by simp [salario_medio, h]⟩
  · intro t h; simp [idade_media, h]
  · intro t q hq h; simp [applySearch, hq, h]
  · intro today t h; simp [novas_contratacoes, h]
  · intro t h; exact ⟨by simp [masculino_count, h], by simp [feminino_count, h]⟩


/-- C7 witness: the amended theorem applied to a concrete one-row table having only the
derived `Status` column. -/
theorem C7_missing_columns_amended_witness :
    applyArea "TI" tC7w = tC7w
    ∧ folha_salarial_anual tC7w = none
    ∧ novas_contratacoes 0 tC7w = Except.error "KeyError: Data_de_Contratacao" := by
  have h := C7_missing_columns_amended
  exact ⟨h.1 tC7w "TI" (by decide), (h.2.2.2.2.2.1 tC7w (by decide)).1,
    h.2.2.2.2.2.2.2.2.1 0 tC7w (by decide)⟩

/-! ### C1 -/

theorem foldl_min_le_init (l : List ℚ) (a : ℚ) : l.foldl min a ≤ a := by
  induction l generalizing a with
  | nil => exact le_refl a
  | cons b l ih =>
    rw [List.foldl_cons]
    exact le_trans (ih (min a b)) (min_le_left a b)

theorem foldl_min_le_mem (l : List ℚ) : ∀ a x : ℚ, x ∈ l → l.foldl min a ≤ x := by
  induction l with
  | nil => intro a x hx; cases hx
  | cons b l ih =>
    intro a x hx
    rw [List.foldl_cons]
    rcases List.mem_cons.mp hx with rfl | h
    · exact le_trans (foldl_min_le_init l (min a x)) (min_le_right a x)
    · exact ih (min a b) x h

theorem foldl_min_mem (l : List ℚ) : ∀ a : ℚ, l.foldl min a = a ∨ l.foldl min a ∈ l := by
  induction l with
  | nil => intro a; exact Or.inl rfl
  | cons b l ih =>
    intro a
    rw [List.foldl_cons]
    rcases ih (min a b) with h | h
    · rw [h]
      rcases min_choice a b with hm | hm
      · exact Or.inl hm
      · exact Or.inr (by rw [hm]; exact List.mem_cons_self b l)
    · exact Or.inr (List.mem_cons_of_mem b h)

theorem foldl_max_init_le (l : List ℚ) (a : ℚ) : a ≤ l.foldl max a := by
  induction l generalizing a with
  | nil => exact le_refl a
  | cons b l ih =>
    rw [List.foldl_cons]
    exact le_trans (le_max_left a b) (ih (max a b))

theorem foldl_max_mem_le (l : List ℚ) : ∀ a x : ℚ, x ∈ l → x ≤ l.foldl max a := by
  induction l with
  | nil => intro a x hx; cases hx
  | cons b l ih =>
    intro a x hx
    rw [List.foldl_cons]
    rcases List.mem_cons.mp hx with rfl | h
    · exact le_trans (le_max_right a x) (foldl_max_init_le l (max a x))
    · exact ih (max a b) x h

theorem foldl_max_mem (l : List ℚ) : ∀ a : ℚ, l.foldl max a = a ∨ l.foldl max a ∈ l := by
  induction l with
  | nil => intro a; exact Or.inl rfl
  | cons b l ih =>
    intro a
    rw [List.foldl_cons]
    rcases ih (max a b) with h | h
    · rw [h]
      rcases max_choice a b with hm | hm
      · exact Or.inl hm
      · exact Or.inr (by rw [hm]; exact List.mem_cons_self b l)
    · exact Or.inr (List.mem_cons_of_mem b h)

theorem min?_le {l : List ℚ} {m x : ℚ} (hm : l.min? = some m) (hx : x ∈ l) : m ≤ x := by
  cases l with
  | nil => cases hm
  | cons a l =>
    cases hm
    rcases List.mem_cons.mp hx with rfl | h
    · exact foldl_min_le_init l x
    · exact foldl_min_le_mem l a x h

theorem min?_mem {l : List ℚ} {m : ℚ} (hm : l.min? = some m) : m ∈ l := by
  cases l with
  | nil => cases hm
  | cons a l =>
    cases hm
    rcases foldl_min_mem l a with h | h
    · rw [h]; exact List.mem_cons_self a l
    · exact List.mem_cons_of_mem a h

theorem le_max? {l : List ℚ} {m x : ℚ} (hm : l.max? = some m) (hx : x ∈ l) : x ≤ m := by
  cases l with
  | nil => cases hm
  | cons a l =>
    cases hm
    rcases List.mem_cons.mp hx with rfl | h
    · exact foldl_max_init_le l x
    · exact foldl_max_mem_le l a x h

theorem max?_mem {l : List ℚ} {m : ℚ} (hm : l.max? = some m) : m ∈ l := by
  cases l with
  | nil => cases hm
  | cons a l =>
    cases hm
    rcases foldl_max_mem l a with h | h
    · rw [h]; exact List.mem_cons_self a l
    · exact List.mem_cons_of_mem a h

theorem truncQ_intCast (k : ℤ) : truncQ ((k : ℤ) : ℚ) = k := by
  simp [truncQ]

theorem applyArea_todos (t : Table) : applyArea "Todos" t = t :=
  guardedFilter_todos _ _ _

theorem applyNivel_todos (t : Table) : applyNivel "Todos" t = t :=
  guardedFilter_todos _ _ _

theorem applyCargo_todos (t : Table) : applyCargo "Todos" t = t :=
  guardedFilter_todos _ _ _

theorem applyStatus_todos (t : Table) : applyStatus "Todos" t = t :=
  guardedFilter_todos _ _ _

theorem applySearch_empty (t : Table) : applySearch "" t = Except.ok t := by
  simp [applySearch]

theorem salVals_intCast_bounds {t : Table} {r : Row} {n : ℤ}
    (hall : ∀ r ∈ t.rows, ∃ n : ℤ, r.Salario_Base = some ((n : ℤ) : ℚ))
    (hr : r ∈ t.rows) (hn : r.Salario_Base = some ((n : ℤ) : ℚ))
    (hne : salVals t ≠ []) :
    (((minSalInt t).getD 0 : ℤ) : ℚ) ≤ ((n : ℤ) : ℚ)
    ∧ ((n : ℤ) : ℚ) ≤ (((maxSalInt t).getD 0 : ℤ) : ℚ) := by
  have hxmem : ((n : ℤ) : ℚ) ∈ salVals t := List.mem_filterMap.mpr ⟨r, hr, hn⟩
  obtain ⟨s, rest, hsv⟩ := List.exists_cons_of_ne_nil hne
  have hmin : (salVals t).min? = some (rest.foldl min s) := by rw [hsv]; rfl
  have hmax : (salVals t).max? = some (rest.foldl max s) := by rw [hsv]; rfl
  obtain ⟨r1, hr1, hs1⟩ := List.mem_filterMap.mp (min?_mem hmin)
  obtain ⟨k1, hk1⟩ := hall r1 hr1
  have hm1 : rest.foldl min s = ((k1 : ℤ) : ℚ) := by
    have := hs1.symm.trans hk1
    exact Option.some.inj this
  obtain ⟨r2, hr2, hs2⟩ := List.mem_filterMap.mp (max?_mem hmax)
  obtain ⟨k2, hk2⟩ := hall r2 hr2
  have hm2 : rest.foldl max s = ((k2 : ℤ) : ℚ) := by
    have := hs2.symm.trans hk2
    exact Option.some.inj this
  constructor
  · have hlo : (minSalInt t).getD 0 = k1 := by
      rw [minSalInt, hmin, hm1]
      simpa using truncQ_intCast k1
    rw [hlo]
    calc ((k1 : ℤ) : ℚ) = rest.foldl min s := hm1.symm
      _ ≤ ((n : ℤ) : ℚ) := min?_le hmin hxmem
  · have hhi : (maxSalInt t).getD 0 = k2 := by
      rw [maxSalInt, hmax, hm2]
      simpa using truncQ_intCast k2
    rw [hhi]
    calc ((n : ℤ) : ℚ) ≤ rest.foldl max s := le_max? hmax hxmem
      _ = ((k2 : ℤ) : ℚ) := hm2

/-- C1 (amended): after a successful load, the pipeline with every parameter at its
identity value returns the table unchanged, provided that whenever the salary filter is
active every row's salary is a non-null integer value; a null salary or a fractional
extreme salary is dropped by the active slider (see the counterexample). -/
theorem C1_identity_filter_amended (today : ℤ) (inp : ExcelInput) (t : Table)
    (_hl : load_and_prepare_data today inp = (t, true))
    (hsal : "Salario_Base" ∈ t.cols → salVals t ≠ [] →
      ∀ r ∈ t.rows, ∃ n : ℤ, r.Salario_Base = some ((n : ℤ) : ℚ)) :
    applyFilters (identityParams t) t = Except.ok t := by
  show applySearch ""
    (applyStatus "Todos"
      (applySalario ((minSalInt t).getD 0) ((maxSalInt t).getD 0)
        (applyCargo "Todos"
          (applyNivel "Todos"
            (applyArea "Todos" t))))) = Except.ok t
  rw [applyArea_todos, applyNivel_todos, applyCargo_todos]
  have hsalario : applySalario ((minSalInt t).getD 0) ((maxSalInt t).getD 0) t = t := by
    unfold applySalario
    by_cases hg : "Salario_Base" ∈ t.cols ∧ salVals t ≠ []
    · rw [if_pos hg]
      have hall := hsal hg.1 hg.2
      have hkeep : t.rows.filter (fun r =>
          match r.Salario_Base with
          | some s => decide ((((minSalInt t).getD 0 : ℤ) : ℚ) ≤ s
              ∧ s ≤ (((maxSalInt t).getD 0 : ℤ) : ℚ))
          | none => false) = t.rows := by
        apply List.filter_eq_self.mpr
        intro r hr
        obtain ⟨n, hn⟩ := hall r hr
        rw [hn]
        exact decide_eq_true (salVals_intCast_bounds hall hr hn hg.2)
      rw [hkeep]
    · rw [if_neg hg]
  rw [hsalario, applyStatus_todos, applySearch_empty]






/-- C1 counterexample: the identity pipeline is not the identity on two successfully
loaded tables — a row with a null salary is dropped by the active slider, and a single
row with salary 100.5 is dropped because the slider bounds truncate to 100. -/
theorem C1_identity_filter_falsified :
    ((load_and_prepare_data 0 (ExcelInput.table rawC1a)).2 = true
      ∧ applyFilters (identityParams tC1a) tC1a ≠ Except.ok tC1a)
    ∧ ((load_and_prepare_data 0 (ExcelInput.table rawC1b)).2 = true
      ∧ applyFilters (identityParams tC1b) tC1b ≠ Except.ok tC1b) := by
  exact ⟨⟨by decide, by decide⟩, ⟨by decide, by decide⟩⟩



/-- C1 witness: the amended theorem applied to a concrete loaded table with integer
salaries 3000 and 5000. -/
theorem C1_identity_filter_amended_witness :
    applyFilters (identityParams tC1w) tC1w = Except.ok tC1w := by
  refine C1_identity_filter_amended 0 (ExcelInput.table rawC1w) tC1w (by decide) ?_
  intro _ _ r hr
  have hcases : r = ({ Salario_Base := some 3000 } : Row)
      ∨ r = ({ Salario_Base := some 5000 } : Row) := by
    simpa [tC1w] using hr
  rcases hcases with rfl | rfl
  · exact ⟨3000, by norm_num⟩
  · exact ⟨5000, by norm_num⟩

/-! ### C9 -/

theorem normalizeColName_valid (s : String) :
    ∀ c ∈ (normalizeColName s).data, (c.isAlphanum || c = '_') = true := by
  intro c hc
  unfold normalizeColName at hc
  exact (List.mem_filter.mp hc).2

theorem normalizeColName_ne_endereco (s : String) : ¬ normalizeColName s = "Endereço" := by
  intro h
  have h2 := normalizeColName_valid s 'ç' (by rw [h]; decide)
  exact absurd h2 (by decide)

theorem load_cols_no_endereco {today : ℤ} {inp : ExcelInput} {t : Table}
    (hl : load_and_prepare_data today inp = (t, true)) : "Endereço" ∉ t.cols := by
  obtain ⟨raw, rfl, hp⟩ := load_ok hl
  obtain ⟨hc, -⟩ := prepare_some hp
  rw [hc]
  intro hmem
  rw [mem_prepCols (by decide) (by decide)] at hmem
  obtain ⟨x, -, hx⟩ := List.mem_map.mp hmem
  exact normalizeColName_ne_endereco x hx

theorem load_rows_transient {today : ℤ} {inp : ExcelInput} {t : Table}
    (hl : load_and_prepare_data today inp = (t, true)) :
    ∀ r ∈ t.rows,
      r.Faixa_Etaria = none ∧ r.Custo_Total_Mensal = none ∧ r.Estado = none := by
  obtain ⟨raw, rfl, hp⟩ := load_ok hl
  obtain ⟨-, hrows⟩ := prepare_some hp
  intro r hr
  rw [hrows] at hr
  obtain ⟨rr, -, rfl⟩ := List.mem_map.mp hr
  exact ⟨rfl, rfl, rfl⟩

theorem eraseTransient_id {r : Row} (h1 : r.Faixa_Etaria = none)
    (h2 : r.Custo_Total_Mensal = none) (h3 : r.Estado = none) : eraseTransient r = r := by
  cases r
  simp only [eraseTransient] at h1 h2 h3 ⊢
  simp_all

theorem eraseTransient_faixa (r : Row) (x : Option String) :
    eraseTransient { r with Faixa_Etaria := x } = eraseTransient r := rfl

theorem eraseTransient_custo (r : Row) (x : Option ℚ) :
    eraseTransient { r with Custo_Total_Mensal := x } = eraseTransient r := rfl

theorem eraseTransient_estado (r : Row) (x : Option String) :
    eraseTransient { r with Estado := x } = eraseTransient r := rfl

theorem faixaStage_rows_erase (t : Table) :
    (faixaStage t).rows.map eraseTransient = t.rows.map eraseTransient := by
  unfold faixaStage
  split
  · simp [List.map_map, Function.comp, eraseTransient_faixa]
  · rfl

theorem custoStage_rows_erase (t : Table) :
    (custoStage t).rows.map eraseTransient = t.rows.map eraseTransient := by
  unfold custoStage
  split
  · rfl
  · simp [List.map_map, Function.comp, eraseTransient_custo]

theorem estadoStage_skip {t : Table} (h : "Endereço" ∉ t.cols) : estadoStage t = t := by
  unfold estadoStage
  rw [if_neg h]

theorem faixaStage_cols_mem (t : Table) (c : String) :
    c ∈ (faixaStage t).cols ↔ c ∈ t.cols ∨ (c = "Faixa_Etaria" ∧ "Idade" ∈ t.cols) := by
  unfold faixaStage
  split
  · next h => rw [mem_addName]; tauto
  · next h => tauto

theorem custoStage_cols_mem (t : Table) (c : String) :
    c ∈ (custoStage t).cols ↔ c ∈ t.cols ∨ c = "Custo_Total_Mensal" := by
  unfold custoStage
  split
  · next h => exact ⟨Or.inl, fun hh => hh.elim id (fun e => e ▸ h)⟩
  · next h => rw [mem_addName]

/-- C9 (amended): both downloads serialize the same frame; that frame holds exactly
the filtered rows (the added transient fields apart) but its columns are the view's
columns plus the transient `Custo_Total_Mensal` (always) and `Faixa_Etaria` (when an
age column exists); `Estado` is never added, because the chart section tests the
accented pre-normalization column name; only the on-screen table drops the transient
columns. -/
theorem C9_export_amended (today : ℤ) (inp : ExcelInput) (t : Table)
    (hl : load_and_prepare_data today inp = (t, true))
    (p : Params) (view : Table) (hv : applyFilters p t = Except.ok view) :
    csvExport view = excelExport view
    ∧ (csvExport view).rows.map eraseTransient = view.rows
    ∧ (∀ c, c ∈ (csvExport view).cols ↔
        (c ∈ view.cols ∨ c = "Custo_Total_Mensal"
          ∨ (c = "Faixa_Etaria" ∧ "Idade" ∈ view.cols)))
    ∧ ("Estado" ∈ (csvExport view).cols ↔ "Estado" ∈ view.cols)
    ∧ (displayTable view).cols =
        (csvExport view).cols.filter (fun c => decide (c ∉ transientCols)) := by
  have hok := applyFilters_ok hv
  have hnoend : "Endereço" ∉ view.cols := by
    rw [hok.1]
    exact load_cols_no_endereco hl
  have hnoend2 : "Endereço" ∉ (custoStage (faixaStage view)).cols := by
    rw [custoStage_cols_mem, faixaStage_cols_mem]
    rintro ((h | ⟨h, -⟩) | h)
    · exact hnoend h
    · exact absurd h (by decide)
    · exact absurd h (by decide)
  have hskip : chartStage view = custoStage (faixaStage view) := by
    unfold chartStage
    exact estadoStage_skip hnoend2
  refine ⟨rfl, ?_, ?_, ?_, rfl⟩
  · show (chartStage view).rows.map eraseTransient = view.rows
    rw [hskip, custoStage_rows_erase, faixaStage_rows_erase]
    have htrans := load_rows_transient hl
    have : ∀ r ∈ view.rows, eraseTransient r = r := by
      intro r hr
      obtain ⟨h1, h2, h3⟩ := htrans r (hok.2 r hr)
      exact eraseTransient_id h1 h2 h3
    calc view.rows.map eraseTransient = view.rows.map id := List.map_congr_left this
      _ = view.rows := List.map_id view.rows
  · intro c
    show c ∈ (chartStage view).cols ↔ _
    rw [hskip, custoStage_cols_mem, faixaStage_cols_mem]
    tauto
  · show "Estado" ∈ (chartStage view).cols ↔ _
    rw [hskip, custoStage_cols_mem, faixaStage_cols_mem]
    constructor
    · rintro ((h | ⟨h, -⟩) | h)
      · exact h
      · exact absurd h (by decide)
      · exact absurd h (by decide)
    · exact fun h => Or.inl (Or.inl h)



/-- C9 counterexample: for a concrete loaded view (the identity filtering of a one-row
table), both download frames differ from the spec's export — they contain the
transient `Custo_Total_Mensal` column, which the spec excludes and only the on-screen
table drops. -/
theorem C9_export_falsified :
    (load_and_prepare_data 0 (ExcelInput.table rawC9)).2 = true
    ∧ applyFilters {} tC9 = Except.ok tC9
    ∧ csvExport tC9 ≠ specExport tC9
    ∧ excelExport tC9 ≠ specExport tC9
    ∧ "Custo_Total_Mensal" ∈ (csvExport tC9).cols
    ∧ "Custo_Total_Mensal" ∉ (specExport tC9).cols := by
  refine ⟨by decide, by decide, by decide, by decide, by decide, by decide⟩

/-- C9 witness: the amended theorem applied to the concrete loaded view `tC9`. -/
theorem C9_export_amended_witness :
    csvExport tC9 = excelExport tC9
    ∧ (csvExport tC9).rows.map eraseTransient = tC9.rows
    ∧ ("Estado" ∈ (csvExport tC9).cols ↔ "Estado" ∈ tC9.cols) := by
  have h := C9_export_amended 0 (ExcelInput.table rawC9) tC9 (by decide) {} tC9 (by decide)
  exact ⟨h.1, h.2.1, h.2.2.2.1⟩

end RHDash
